import Mathlib

/-!
Verification of the go-toml-config configuration library (src/config.go and
src/tomlcfg.go) against its natural-language specification.

The embedding models:
* the strconv-layer textual conversions used by the flag package
  (strconv.ParseBool / ParseInt / ParseUint with base 0 and bit size 64,
  exactly as invoked by flag's boolValue/intValue/int64Value/uintValue/
  uint64Value Set methods, error text included),
* flag.FlagSet as a registry of named typed slots (declaration via Var,
  which aborts on redefinition, and mutation via Set, which returns its
  error as a value and never consults the ErrorHandling policy, as
  pinned by the repository's own tests in src/config_test.go),
* the TOML document tree as the ordered list of (key, value) entries,
* loadTomlTree, buildLoadError and Parse from src/config.go, and the
  Duration declaration from src/tomlcfg.go.

Machine integers are modelled as Nat/Int with the explicit 2^63 / 2^64
bounds that strconv enforces.  File I/O and the external TOML text parser
are passed in as explicit functions, mirroring their role as external
collaborators.
-/

/-! ## Go character helpers -/

/-- Digit value of a character as computed by strconv.ParseUint:
decimal digits, then lowercase and uppercase letters from 10 up. -/
def goDigitVal (c : Char) : Option Nat :=
  if '0' ≤ c ∧ c ≤ '9' then some (c.toNat - '0'.toNat)
  else if 'a' ≤ c ∧ c ≤ 'z' then some (c.toNat - 'a'.toNat + 10)
  else if 'A' ≤ c ∧ c ≤ 'Z' then some (c.toNat - 'A'.toNat + 10)
  else none

/-- Membership in the RE2 character class backslash-s, that is
[tab, newline, form feed, carriage return, space]. -/
def goWhitespace (c : Char) : Bool :=
  c == ' ' || c == '\t' || c == '\n' || c == '\x0c' || c == '\r'

/-- Escape of a single character inside a Go quoted string, as produced by
strconv.Quote restricted to the printable-ASCII-plus-escapes fragment that
the configuration values in scope can contain. -/
def goEscapeChar (c : Char) : List Char :=
  if c = '"' then ['\\', '"']
  else if c = '\\' then ['\\', '\\']
  else if c = '\n' then ['\\', 'n']
  else if c = '\t' then ['\\', 't']
  else if c = '\r' then ['\\', 'r']
  else [c]

/-- Interior of strconv.Quote: every character escaped. -/
def goQuoteInner (l : List Char) : List Char :=
  (l.map goEscapeChar).flatten

/-- Abbreviation for the string type, used in signatures where a
same-named declaration operation shadows the type name. -/
abbrev Str := String

/-- strconv.Quote: the escaped string wrapped in double quotes. -/
def goQuote (s : String) : String :=
  String.mk ('"' :: (goQuoteInner s.data ++ ['"']))

/-! ## strconv number parsing (Go standard library, as called by flag) -/

/-- Error kind of a strconv NumError: ErrSyntax or ErrRange. -/
inductive NumErr where
  | errSyntax
  | errRange
deriving DecidableEq

/-- Error text of strconv ErrSyntax / ErrRange. -/
def NumErr.text : NumErr → String
  | .errSyntax => "invalid syntax"
  | .errRange => "value out of range"

/-- Rendering of a strconv NumError: Quote of the offending number is
embedded in the message. -/
def numErrorMsg (fn num : String) (e : NumErr) : String :=
  "strconv." ++ fn ++ ": parsing " ++ goQuote num ++ ": " ++ e.text

/-- Largest uint64 value. -/
def maxUint64 : Nat := 2 ^ 64 - 1

/-- Cutoff used by strconv.ParseUint: smallest running value whose
multiplication by the base overflows uint64. -/
def cutoff64 (b : Nat) : Nat := maxUint64 / b + 1

/-- Digit-accumulation loop of strconv.ParseUint with bitSize 64.  On a bad
digit the result is 0 with ErrSyntax; on overflow it is maxUint64 with
ErrRange, exactly as in the Go source. -/
def puLoop (b : Nat) : List Char → Nat → Nat × Option NumErr
  | [], n => (n, none)
  | d :: rest, n =>
    match goDigitVal d with
    | none => (0, some .errSyntax)
    | some v =>
      if b ≤ v then (0, some .errSyntax)
      else if cutoff64 b ≤ n then (maxUint64, some .errRange)
      else if maxUint64 < n * b + v then (maxUint64, some .errRange)
      else puLoop b rest (n * b + v)

/-- strconv.ParseUint with base 0 and bitSize 64 over the character list:
empty input is a syntax error; a leading "0x"/"0X" selects base 16, a
leading "0" base 8, otherwise base 10. -/
def parseUintChars (l : List Char) : Nat × Option NumErr :=
  match l with
  | [] => (0, some .errSyntax)
  | '0' :: c :: rest =>
    if c = 'x' ∨ c = 'X' then
      if rest = [] then (0, some .errSyntax) else puLoop 16 rest 0
    else puLoop 8 ('0' :: c :: rest) 0
  | ['0'] => puLoop 8 ['0'] 0
  | l => puLoop 10 l 0

/-- strconv.ParseUint(s, 0, 64) as called by flag's uintValue/uint64Value. -/
def parseUintGo (s : String) : Nat × Option NumErr :=
  parseUintChars s.data

/-- strconv.ParseInt(s, 0, 64) as called by flag's intValue/int64Value:
strip one optional sign, run ParseUint, then apply the signed 2^63
cutoffs.  A range error from ParseUint flows into the cutoff checks; on a
syntax error the value 0 is returned, on a range error the clamped bound,
matching the Go source. -/
def parseIntGo (s : String) : Int × Option NumErr :=
  match s.data with
  | [] => (0, some .errSyntax)
  | c :: rest =>
    let neg : Bool := c = '-'
    let digits : List Char := if c = '+' ∨ c = '-' then rest else c :: rest
    match parseUintChars digits with
    | (_, some .errSyntax) => (0, some .errSyntax)
    | (un, _) =>
      if neg = false ∧ 2 ^ 63 ≤ un then (((2 ^ 63 - 1 : Nat) : Int), some .errRange)
      else if neg = true ∧ 2 ^ 63 < un then (-((2 ^ 63 : Nat) : Int), some .errRange)
      else (if neg then -(un : Int) else (un : Int), none)

/-- strconv.ParseBool as called by flag's boolValue. -/
def parseBoolGo (s : String) : Bool × Option NumErr :=
  if s = "1" ∨ s = "t" ∨ s = "T" ∨ s = "true" ∨ s = "TRUE" ∨ s = "True" then
    (true, none)
  else if s = "0" ∨ s = "f" ∨ s = "F" ∨ s = "false" ∨ s = "FALSE" ∨ s = "False" then
    (false, none)
  else (false, some .errSyntax)

/-! ## time.ParseDuration (integer fragment)

Only the duration declaration operations are exercised by the claims; the
conversion below models the integer fragment of time.ParseDuration (sign,
repeated digit-run/unit pairs, the special case "0").  Fractional
mantissas, which Go evaluates in float64, are rejected; no claim depends
on duration conversion. -/

/-- Unit multipliers of time.ParseDuration, in nanoseconds. -/
def durationUnit : String → Option Nat
  | "ns" => some 1
  | "us" => some 1000
  | "µs" => some 1000
  | "ms" => some 1000000
  | "s" => some 1000000000
  | "m" => some 60000000000
  | "h" => some 3600000000000
  | _ => none

/-- leadingInt from the time package: consume decimal digits, failing when
the running int64 value would overflow. -/
def goLeadingInt : List Char → Nat → Option (Nat × List Char)
  | [], x => some (x, [])
  | c :: rest, x =>
    if '0' ≤ c ∧ c ≤ '9' then
      if (2 ^ 63 - 1) / 10 ≤ x then none
      else goLeadingInt rest (x * 10 + (c.toNat - '0'.toNat))
    else some (x, c :: rest)

/-- Split off the unit name: the maximal run of characters that are
neither digits nor a period. -/
def takeDurUnit : List Char → List Char × List Char
  | [] => ([], [])
  | c :: rest =>
    if c = '.' ∨ ('0' ≤ c ∧ c ≤ '9') then ([], c :: rest)
    else
      let (u, r) := takeDurUnit rest
      (c :: u, r)

/-- Item loop of time.ParseDuration (integer fragment), fuelled by the
input length. -/
def durLoop (orig : String) : Nat → List Char → Int → Int × Option String
  | 0, _, _ => (0, some ("time: invalid duration " ++ orig))
  | _ + 1, [], acc => (acc, none)
  | fuel + 1, c :: rest, acc =>
    if c = '.' then (0, some ("time: invalid duration " ++ orig))
    else if ¬('0' ≤ c ∧ c ≤ '9') then (0, some ("time: invalid duration " ++ orig))
    else
      match goLeadingInt (c :: rest) 0 with
      | none => (0, some ("time: invalid duration " ++ orig))
      | some (x, r1) =>
        match r1 with
        | '.' :: _ => (0, some ("time: invalid duration " ++ orig))
        | r1 =>
          let (u, r2) := takeDurUnit r1
          match durationUnit (String.mk u) with
          | none => (0, some ("time: unknown unit " ++ String.mk u ++ " in duration " ++ orig))
          | some mult => durLoop orig fuel r2 (acc + (x : Int) * (mult : Int))

/-- time.ParseDuration, integer fragment. -/
def parseDurationGo (s : String) : Int × Option String :=
  match s.data with
  | [] => (0, some ("time: invalid duration " ++ s))
  | c :: rest =>
    let neg : Bool := c = '-'
    let body : List Char := if c = '+' ∨ c = '-' then rest else c :: rest
    if body = ['0'] then (0, none)
    else if body = [] then (0, some ("time: invalid duration " ++ s))
    else
      match durLoop s (body.length + 1) body 0 with
      | (_, some e) => (0, some e)
      | (n, none) => (if neg then -n else n, none)

/-! ## The settings registry (flag.FlagSet wrapped by ConfigSet) -/

/-- Value held by one settings slot.  The constructor fixes the slot's
declared type (flag stores one typed flag.Value per flag); float64 slots
are outside the embedding.  Durations are nanosecond counts. -/
inductive SettingValue where
  | vBool (b : Bool)
  | vInt (n : Int)
  | vInt64 (n : Int)
  | vUint (n : Nat)
  | vUint64 (n : Nat)
  | vString (s : String)
  | vDuration (n : Int)
deriving DecidableEq

/-- Error-handling policy constants re-exported by config.go from flag. -/
inductive ErrorHandling where
  | continueOnError
  | exitOnError
  | panicOnError
deriving DecidableEq

/-- ConfigSet from config.go: a wrapped flag.FlagSet, that is a name, the
error-handling policy it was constructed with, and the name-to-slot
mapping (flag's formal map, modelled as an association list). -/
structure ConfigSet where
  name : String
  errorHandling : ErrorHandling
  formal : List (String × SettingValue)
deriving DecidableEq

/-- Lookup in the formal map. -/
def lookupSetting : List (String × SettingValue) → String → Option SettingValue
  | [], _ => none
  | (k, v) :: rest, n => if k = n then some v else lookupSetting rest n

/-- Replacement of the slot named n, when present. -/
def updateSetting : List (String × SettingValue) → String → SettingValue →
    List (String × SettingValue)
  | [], _, _ => []
  | (k, v) :: rest, n, v' =>
    if k = n then (k, v') :: rest else (k, v) :: updateSetting rest n v'

/-- Conversion of text into a slot's declared type: the flag.Value Set
method of the slot's kind.  The converted value is written even when an
error is reported (0, false, or the clamped bound), exactly as the flag
value types do; the error string is the strconv / time error text. -/
def convert : SettingValue → String → SettingValue × Option String
  | .vBool _, s =>
    ((.vBool (parseBoolGo s).1), (parseBoolGo s).2.map (fun e => numErrorMsg "ParseBool" s e))
  | .vInt _, s =>
    ((.vInt (parseIntGo s).1), (parseIntGo s).2.map (fun e => numErrorMsg "ParseInt" s e))
  | .vInt64 _, s =>
    ((.vInt64 (parseIntGo s).1), (parseIntGo s).2.map (fun e => numErrorMsg "ParseInt" s e))
  | .vUint _, s =>
    ((.vUint (parseUintGo s).1), (parseUintGo s).2.map (fun e => numErrorMsg "ParseUint" s e))
  | .vUint64 _, s =>
    ((.vUint64 (parseUintGo s).1), (parseUintGo s).2.map (fun e => numErrorMsg "ParseUint" s e))
  | .vString _, s => (.vString s, none)
  | .vDuration _, s => ((.vDuration (parseDurationGo s).1), (parseDurationGo s).2)

/-- flag.FlagSet.Set, promoted to ConfigSet: look the name up in the
formal map; absent names yield the "no such flag -name" error; otherwise
run the slot's conversion and store the produced value.  The error is
always returned as a value; the ErrorHandling policy is not consulted
(the policy only acts inside flag.FlagSet.Parse, which this library never
calls, as the repository's tests confirm by running failing loads on an
ExitOnError set). -/
def ConfigSet.Set (c : ConfigSet) (name text : String) : ConfigSet × Option String :=
  match lookupSetting c.formal name with
  | none => (c, some ("no such flag -" ++ name))
  | some sv =>
    (⟨c.name, c.errorHandling, updateSetting c.formal name (convert sv text).1⟩,
     (convert sv text).2)

/-- Result of a declaration call: flag.FlagSet.Var either extends the
formal map or, when the name is already declared, prints and panics with
the "flag redefined" message. -/
inductive DeclResult where
  | ok (c : ConfigSet)
  | panicked (msg : String)
deriving DecidableEq

/-- flag.FlagSet.Var: redefinition of a declared name panics; otherwise
the slot is added with the given default as its value, and the returned
handle reads that slot. -/
def ConfigSet.Var (c : ConfigSet) (name : String) (v : SettingValue) : DeclResult :=
  match lookupSetting c.formal name with
  | some _ =>
    .panicked (if c.name = "" then "flag redefined: " ++ name
               else c.name ++ " flag redefined: " ++ name)
  | none => .ok ⟨c.name, c.errorHandling, c.formal ++ [(name, v)]⟩

/-- ConfigSet.Bool from config.go. -/
def ConfigSet.Bool (c : ConfigSet) (name : String) (value : Bool) : DeclResult :=
  c.Var name (.vBool value)

/-- ConfigSet.Int from config.go. -/
def ConfigSet.Int (c : ConfigSet) (name : String) (value : Int) : DeclResult :=
  c.Var name (.vInt value)

/-- ConfigSet.Int64 from config.go. -/
def ConfigSet.Int64 (c : ConfigSet) (name : Str) (value : ℤ) : DeclResult :=
  c.Var name (.vInt64 value)

/-- ConfigSet.Uint from config.go. -/
def ConfigSet.Uint (c : ConfigSet) (name : String) (value : Nat) : DeclResult :=
  c.Var name (.vUint value)

/-- ConfigSet.Uint64 from config.go. -/
def ConfigSet.Uint64 (c : ConfigSet) (name : String) (value : Nat) : DeclResult :=
  c.Var name (.vUint64 value)

/-- ConfigSet.String from config.go. -/
def ConfigSet.String (c : ConfigSet) (name : String) (value : String) : DeclResult :=
  c.Var name (.vString value)

/-- ConfigSet.Duration from config.go (the nanosecond count of the
time.Duration default). -/
def ConfigSet.Duration (c : ConfigSet) (name : Str) (value : ℤ) : DeclResult :=
  c.Var name (.vDuration value)

/-- NewConfigSet from config.go. -/
def NewConfigSet (name : String) (errorHandling : ErrorHandling) : ConfigSet :=
  ⟨name, errorHandling, []⟩

/-! ## The TOML document tree -/

/-- Scalar leaf of the parsed TOML document, as produced by the external
go-toml parser: booleans, 64-bit integers and strings.  Float leaves are
outside the embedding. -/
inductive TomlScalar where
  | sBool (b : Bool)
  | sInt (n : Int)
  | sString (s : String)
deriving DecidableEq

/-- Parsed TOML tree: the ordered list of (key, value) entries of one
table, each value either a scalar leaf or a sub-table. -/
inductive TomlEntries where
  | nil
  | consScalar (key : String) (v : TomlScalar) (rest : TomlEntries)
  | consTree (key : String) (sub : TomlEntries) (rest : TomlEntries)
deriving DecidableEq

/-- fmt.Sprintf with the %v verb on a TOML leaf: booleans print as
true/false, int64 in decimal with a leading minus when negative, strings
verbatim. -/
def renderScalar : TomlScalar → String
  | .sBool b => if b then "true" else "false"
  | .sInt n => toString n
  | .sString s => s

/-! ## buildLoadError (config.go) -/

/-- Prefix test over character lists. -/
def charsPrefix : List Char → List Char → Bool
  | [], _ => true
  | _ :: _, [] => false
  | a :: as, b :: bs => a == b && charsPrefix as bs

/-- Newline-freeness of a character list. -/
def noNL : List Char → Bool
  | [] => true
  | c :: cs => c != '\n' && noNL cs

/-- MatchString of the anchored pattern "no such flag -" followed by one
or more non-whitespace characters. -/
def missingFlagMatches (l : List Char) : Bool :=
  charsPrefix "no such flag -".data l &&
    (match l.drop 14 with
     | [] => false
     | c :: _ => !goWhitespace c)

/-- Literal " parsing quote" that separates the function prefix from the
quoted number in a strconv error message. -/
def parsingLit : List Char := " parsing \"".data

/-- Trailing literal of the invalid-syntax pattern: a closing quote,
then ": invalid syntax". -/
def invSynTail : List Char := "\": invalid syntax".data

/-- One-position test for the middle of the invalid-syntax pattern: the
separator literal followed by a nonempty newline-free quoted number. -/
def invSynAt (l : List Char) : Bool :=
  charsPrefix parsingLit l &&
    (match l.drop 10 with
     | [] => false
     | b => noNL b)

/-- Scan for the dot-plus prefix of the invalid-syntax pattern: at least
one newline-free character, then the separator literal somewhere. -/
def invSynScan : List Char → Bool
  | [] => false
  | c :: cs => c != '\n' && (invSynAt cs || invSynScan cs)

/-- MatchString of the anchored pattern dot-plus, " parsing ", a quoted
nonempty number, ": invalid syntax" at end of text (RE2 semantics: the
dot excludes newlines, the anchors bind to the whole text). -/
def invSynMatches (l : List Char) : Bool :=
  17 ≤ l.length &&
    decide (l.drop (l.length - 17) = invSynTail) &&
    invSynScan (l.take (l.length - 17))

/-- buildLoadError from config.go: rewrite the two recognized error
shapes — the missing-flag message keeps the captured non-whitespace run
and substitutes around it, the invalid-syntax message becomes the fixed
"The value for path is invalid" — and pass every other message through
unmodified. -/
def buildLoadError (path : String) (errMsg : String) : String :=
  let l := errMsg.data
  if missingFlagMatches l then
    let rest := l.drop 14
    let cap := rest.takeWhile (fun c => !goWhitespace c)
    let rem := rest.dropWhile (fun c => !goWhitespace c)
    String.mk (cap ++ " is not a valid config setting".data ++ rem)
  else if invSynMatches l then
    "The value for " ++ path ++ " is invalid"
  else errMsg

/-! ## loadTomlTree and Parse (config.go) -/

/-- loadTomlTree from config.go: walk the entries of the tree in order,
recursing into sub-tables with the extended path and applying each scalar
leaf through Set under its dotted name; the first error aborts the walk,
scalar errors after translation through buildLoadError. -/
def loadTomlTree (c : ConfigSet) : TomlEntries → List String → ConfigSet × Option String
  | .nil, _ => (c, none)
  | .consTree key sub rest, path =>
    match loadTomlTree c sub (path ++ [key]) with
    | (c', some e) => (c', some e)
    | (c', none) => loadTomlTree c' rest path
  | .consScalar key v rest, path =>
    match c.Set (String.intercalate "." (path ++ [key])) (renderScalar v) with
    | (c', some e) =>
      (c', some (buildLoadError (String.intercalate "." (path ++ [key])) e))
    | (c', none) => loadTomlTree c' rest path

/-- Leaves of the tree in traversal order, each with its dotted name. -/
def leaves : TomlEntries → List String → List (String × TomlScalar)
  | .nil, _ => []
  | .consTree key sub rest, path => leaves sub (path ++ [key]) ++ leaves rest path
  | .consScalar key v rest, path =>
    (String.intercalate "." (path ++ [key]), v) :: leaves rest path

/-- Sequential application of dotted leaves through Set with translation
of the first error: the flat form of loadTomlTree. -/
def foldSet (c : ConfigSet) : List (String × TomlScalar) → ConfigSet × Option String
  | [] => (c, none)
  | (p, v) :: rest =>
    match c.Set p (renderScalar v) with
    | (c', some e) => (c', some (buildLoadError p e))
    | (c', none) => foldSet c' rest

/-- ConfigSet.Parse from config.go, with the file system and the external
TOML text parser passed in as explicit functions: a read failure is
returned unmodified, a parse failure produces the fixed not-a-valid-TOML
message naming the path, and otherwise the tree is loaded. -/
def ConfigSet.Parse (c : ConfigSet) (path : Str)
    (readFile : Str → Except Str Str)
    (tomlLoad : Str → Except Str TomlEntries) : ConfigSet × Option Str :=
  match readFile path with
  | .error e => (c, some e)
  | .ok contents =>
    match tomlLoad contents with
    | .error _ =>
      (c, some (path ++ " is not a valid TOML file. See https://github.com/mojombo/toml"))
    | .ok tree =>
      match loadTomlTree c tree [] with
      | (c', some e) => (c', some e)
      | (c', none) => (c', none)

/-! ## The tomlcfg variant (src/tomlcfg.go) -/

namespace Tomlcfg

/-- ConfigSet.Duration from tomlcfg.go: the body registers the duration
flag on the package-global globalConfig, not on the receiver.  The global
registry is threaded as explicit state; the pair returned is the receiver
(which the body never touches) and the declaration result on the
global. -/
def ConfigSet.Duration (c globalConfig : ConfigSet) (name : Str) (value : ℤ) :
    ConfigSet × DeclResult :=
  (c, globalConfig.Var name (.vDuration value))

end Tomlcfg

/-! ## Basic helper lemmas -/

theorem strAppend_mk : ∀ (a b : String), a ++ b = String.mk (a.data ++ b.data)
  | ⟨_⟩, ⟨_⟩ => rfl

theorem strData_append (a b : String) : (a ++ b).data = a.data ++ b.data := by
  rw [strAppend_mk]

theorem drop_len_append {α : Type} : ∀ (l₁ l₂ : List α), (l₁ ++ l₂).drop l₁.length = l₂
  | [], _ => rfl
  | _ :: as, l₂ => drop_len_append as l₂

theorem take_len_append {α : Type} : ∀ (l₁ l₂ : List α), (l₁ ++ l₂).take l₁.length = l₁
  | [], _ => rfl
  | a :: as, l₂ => by simp [take_len_append as l₂]

theorem charsPrefix_self_append : ∀ (l r : List Char), charsPrefix l (l ++ r) = true
  | [], _ => rfl
  | a :: as, r => by simp [charsPrefix, charsPrefix_self_append as r]

theorem takeWhile_eq_self_of_all {α : Type} (f : α → Bool) :
    ∀ l : List α, (∀ a ∈ l, f a = true) → l.takeWhile f = l
  | [], _ => rfl
  | a :: as, h => by
    simp [List.takeWhile, h a (by simp),
      takeWhile_eq_self_of_all f as (fun x hx => h x (List.mem_cons_of_mem a hx))]

theorem dropWhile_eq_nil_of_all {α : Type} (f : α → Bool) :
    ∀ l : List α, (∀ a ∈ l, f a = true) → l.dropWhile f = []
  | [], _ => rfl
  | a :: as, h => by
    simp [List.dropWhile, h a (by simp),
      dropWhile_eq_nil_of_all f as (fun x hx => h x (List.mem_cons_of_mem a hx))]

theorem noNL_of_all : ∀ l : List Char, (∀ c ∈ l, c ≠ '\n') → noNL l = true
  | [], _ => rfl
  | c :: cs, h => by
    simp [noNL, noNL_of_all cs (fun x hx => h x (List.mem_cons_of_mem c hx))]
    exact h c (by simp)

/-! ## Registry lemmas -/

theorem lookupSetting_updateSetting_self :
    ∀ (f : List (String × SettingValue)) (p : String) (v : SettingValue),
      (lookupSetting f p).isSome → lookupSetting (updateSetting f p v) p = some v
  | [], p, v, h => by simp [lookupSetting] at h
  | (k, w) :: rest, p, v, h => by
    by_cases hk : k = p
    · subst hk
      simp [updateSetting, lookupSetting]
    · simp only [lookupSetting, if_neg hk] at h
      simp only [updateSetting, if_neg hk, lookupSetting, if_neg hk]
      exact lookupSetting_updateSetting_self rest p v h

theorem lookupSetting_updateSetting_ne :
    ∀ (f : List (String × SettingValue)) (p q : String) (v : SettingValue), q ≠ p →
      lookupSetting (updateSetting f q v) p = lookupSetting f p
  | [], _, _, _, _ => rfl
  | (k, w) :: rest, p, q, v, h => by
    by_cases hk : k = q
    · subst hk
      simp only [updateSetting, if_pos rfl, lookupSetting, if_neg (fun hkp => h hkp)]
    · simp only [updateSetting, if_neg hk, lookupSetting]
      by_cases hkp : k = p
      · simp [hkp]
      · simp only [if_neg hkp]
        exact lookupSetting_updateSetting_ne rest p q v h

theorem lookupSetting_append_fresh :
    ∀ (f : List (String × SettingValue)) (p : String) (v : SettingValue),
      lookupSetting f p = none → lookupSetting (f ++ [(p, v)]) p = some v
  | [], p, v, _ => by simp [lookupSetting]
  | (k, w) :: rest, p, v, h => by
    by_cases hk : k = p
    · simp [lookupSetting, if_pos hk] at h
    · simp only [lookupSetting, if_neg hk] at h
      simp only [List.cons_append, lookupSetting, if_neg hk]
      exact lookupSetting_append_fresh rest p v h

theorem Set_of_lookup_none {c : ConfigSet} {p : String} (t : String)
    (h : lookupSetting c.formal p = none) :
    c.Set p t = (c, some ("no such flag -" ++ p)) := by
  simp [ConfigSet.Set, h]

theorem Set_of_lookup_some {c : ConfigSet} {p : String} {sv : SettingValue} (t : String)
    (h : lookupSetting c.formal p = some sv) :
    c.Set p t = (⟨c.name, c.errorHandling, updateSetting c.formal p (convert sv t).1⟩,
                 (convert sv t).2) := by
  simp [ConfigSet.Set, h]

theorem Set_lookup_other {c : ConfigSet} {p q : String} (t : String) (h : q ≠ p) :
    lookupSetting ((c.Set q t).1).formal p = lookupSetting c.formal p := by
  unfold ConfigSet.Set
  cases hq : lookupSetting c.formal q with
  | none => rfl
  | some sv => simpa using lookupSetting_updateSetting_ne c.formal p q (convert sv t).1 h

/-! ## foldSet and loadTomlTree lemmas -/

theorem foldSet_append_ok {c c₁ : ConfigSet} :
    ∀ (l₁ : List (String × TomlScalar)), foldSet c l₁ = (c₁, none) →
      ∀ l₂, foldSet c (l₁ ++ l₂) = foldSet c₁ l₂ := by
  intro l₁
  induction l₁ generalizing c with
  | nil =>
    intro h l₂
    simp only [foldSet] at h
    injection h with h1 h2
    subst h1
    rfl
  | cons pv rest ih =>
    intro h l₂
    obtain ⟨p, v⟩ := pv
    simp only [foldSet] at h ⊢
    cases hs : ConfigSet.Set c p (renderScalar v) with
    | mk c' e =>
      rw [hs] at h
      cases e with
      | some e => simp at h
      | none => exact ih h l₂

theorem foldSet_append_err {c c₁ : ConfigSet} {e : String} :
    ∀ (l₁ : List (String × TomlScalar)), foldSet c l₁ = (c₁, some e) →
      ∀ l₂, foldSet c (l₁ ++ l₂) = (c₁, some e) := by
  intro l₁
  induction l₁ generalizing c with
  | nil =>
    intro h
    simp [foldSet] at h
  | cons pv rest ih =>
    intro h l₂
    obtain ⟨p, v⟩ := pv
    simp only [foldSet] at h ⊢
    cases hs : ConfigSet.Set c p (renderScalar v) with
    | mk c' e' =>
      rw [hs] at h
      cases e' with
      | some e' => exact h
      | none => exact ih h l₂

theorem loadTomlTree_eq_foldSet (t : TomlEntries) :
    ∀ (path : List String) (c : ConfigSet),
      loadTomlTree c t path = foldSet c (leaves t path) := by
  induction t with
  | nil => intro path c; rfl
  | consScalar key v rest ih =>
    intro path c
    simp only [loadTomlTree, leaves, foldSet]
    cases hs : ConfigSet.Set c (String.intercalate "." (path ++ [key])) (renderScalar v) with
    | mk c' e =>
      cases e with
      | some e => rfl
      | none => exact ih path c'
  | consTree key sub rest ihsub ihrest =>
    intro path c
    simp only [loadTomlTree, leaves]
    rw [ihsub]
    cases hs : foldSet c (leaves sub (path ++ [key])) with
    | mk c' e =>
      cases e with
      | some e =>
        rw [foldSet_append_err _ hs]
      | none =>
        rw [foldSet_append_ok _ hs]
        exact ihrest path c'

theorem foldSet_lookup_of_notMem (p : String) :
    ∀ (l : List (String × TomlScalar)), p ∉ l.map Prod.fst →
      ∀ c, lookupSetting ((foldSet c l).1).formal p = lookupSetting c.formal p := by
  intro l
  induction l with
  | nil => intro _ c; rfl
  | cons qv rest ih =>
    intro h c
    obtain ⟨q, v⟩ := qv
    simp only [List.map_cons, List.mem_cons] at h
    push_neg at h
    obtain ⟨hq, hrest⟩ := h
    simp only [foldSet]
    have hpres : lookupSetting ((c.Set q (renderScalar v)).1).formal p
        = lookupSetting c.formal p :=
      Set_lookup_other (renderScalar v) (fun hqp => hq (hqp ▸ rfl))
    cases hs : ConfigSet.Set c q (renderScalar v) with
    | mk c' e =>
      rw [hs] at hpres
      cases e with
      | some e => exact hpres
      | none => rw [ih hrest c', hpres]

theorem foldSet_success_lookup (p : String) (v : TomlScalar) :
    ∀ (l : List (String × TomlScalar)) (c : ConfigSet) (sv : SettingValue),
      lookupSetting c.formal p = some sv →
      l.filter (fun e => e.1 == p) = [(p, v)] →
      (foldSet c l).2 = none →
      lookupSetting ((foldSet c l).1).formal p = some (convert sv (renderScalar v)).1
        ∧ (convert sv (renderScalar v)).2 = none := by
  intro l
  induction l with
  | nil =>
    intro c sv _ hf _
    simp at hf
  | cons qw rest ih =>
    intro c sv hdecl hf hok
    obtain ⟨q, w⟩ := qw
    rw [List.filter_cons] at hf
    by_cases hq : q = p
    · subst hq
      simp only [beq_self_eq_true, if_pos] at hf
      injection hf with hf1 hf2
      injection hf1 with _ hfw
      subst hfw
      have hnotmem : q ∉ rest.map Prod.fst := by
        intro hmem
        obtain ⟨e, he, heq⟩ := List.mem_map.mp hmem
        have := List.filter_eq_nil_iff.mp hf2 e he
        simp [heq] at this
      have hset := Set_of_lookup_some (c := c) (renderScalar w) hdecl
      cases hcv : (convert sv (renderScalar w)).2 with
      | some e =>
        exfalso
        simp only [foldSet, hset, hcv] at hok
        exact Option.noConfusion hok
      | none =>
        refine ⟨?_, rfl⟩
        simp only [foldSet, hset, hcv]
        rw [foldSet_lookup_of_notMem q rest hnotmem]
        exact lookupSetting_updateSetting_self c.formal q _ (by rw [hdecl]; rfl)
    · have hqb : ((q, w).1 == p) = false := by
        simp [hq]
      rw [hqb] at hf
      simp only [if_neg Bool.false_ne_true] at hf
      cases hs : c.Set q (renderScalar w) with
      | mk c₁ e =>
        have hpres := Set_lookup_other (c := c) (q := q) (p := p) (renderScalar w) hq
        rw [hs] at hpres
        cases e with
        | some e =>
          exfalso
          simp only [foldSet, hs] at hok
          exact Option.noConfusion hok
        | none =>
          simp only [foldSet, hs]
          simp only [foldSet, hs] at hok
          exact ih c₁ sv (hpres.trans hdecl) hf hok

/-! ## Error-policy irrelevance -/

/-- Replacement of a ConfigSet's error-handling policy, leaving the name
and the formal map unchanged. -/
def ConfigSet.withPolicy (c : ConfigSet) (pol : ErrorHandling) : ConfigSet :=
  ⟨c.name, pol, c.formal⟩

theorem Set_withPolicy (c : ConfigSet) (pol : ErrorHandling) (p t : String) :
    (c.withPolicy pol).Set p t = (((c.Set p t).1).withPolicy pol, (c.Set p t).2) := by
  unfold ConfigSet.Set ConfigSet.withPolicy
  cases h : lookupSetting c.formal p <;> simp [h]

theorem foldSet_withPolicy (pol : ErrorHandling) :
    ∀ (l : List (String × TomlScalar)) (c : ConfigSet),
      foldSet (c.withPolicy pol) l = (((foldSet c l).1).withPolicy pol, (foldSet c l).2)
  | [], c => rfl
  | (p, v) :: rest, c => by
    simp only [foldSet, Set_withPolicy]
    cases hs : c.Set p (renderScalar v) with
    | mk c₁ e =>
      cases e with
      | some e => rfl
      | none => simpa using foldSet_withPolicy pol rest c₁

/-! ## buildLoadError shape lemmas -/

theorem goEscapeChar_ne_nil (c : Char) : goEscapeChar c ≠ [] := by
  unfold goEscapeChar
  split
  · simp
  · split
    · simp
    · split
      · simp
      · split
        · simp
        · split <;> simp

theorem goEscapeChar_no_newline (c : Char) : '\n' ∉ goEscapeChar c := by
  unfold goEscapeChar
  split
  · decide
  · split
    · decide
    · split
      · decide
      · split
        · decide
        · split
          · decide
          · intro hmem
            rename_i h1 h2 h3 h4 h5
            exact h3 (List.mem_singleton.mp hmem).symm

theorem goQuoteInner_ne_nil : ∀ l : List Char, l ≠ [] → goQuoteInner l ≠ []
  | [], h => absurd rfl h
  | c :: rest, _ => by
    unfold goQuoteInner
    simp only [List.map_cons, List.flatten_cons]
    intro h
    rcases List.append_eq_nil.mp h with ⟨h1, -⟩
    exact goEscapeChar_ne_nil c h1

theorem goQuoteInner_no_newline (l : List Char) : '\n' ∉ goQuoteInner l := by
  unfold goQuoteInner
  intro h
  obtain ⟨chunk, hchunk, hmem⟩ := List.mem_flatten.mp h
  obtain ⟨c, -, rfl⟩ := List.mem_map.mp hchunk
  exact goEscapeChar_no_newline c hmem

theorem invSynAt_append (B : List Char) (hB : B ≠ []) (hnl : ∀ c ∈ B, c ≠ '\n') :
    invSynAt (parsingLit ++ B) = true := by
  unfold invSynAt
  rw [charsPrefix_self_append]
  have hdrop : (parsingLit ++ B).drop 10 = B := by
    have h10 : parsingLit.length = 10 := rfl
    rw [← h10, drop_len_append]
  rw [hdrop]
  cases B with
  | nil => exact absurd rfl hB
  | cons b bs =>
    simp only [Bool.true_and]
    exact noNL_of_all _ hnl

theorem invSynScan_append :
    ∀ (l₁ rest : List Char), l₁ ≠ [] → (∀ c ∈ l₁, c ≠ '\n') → invSynAt rest = true →
      invSynScan (l₁ ++ rest) = true
  | [], _, h₁, _, _ => absurd rfl h₁
  | [c], rest, _, hnl, h => by
    show invSynScan (c :: rest) = true
    unfold invSynScan
    rw [h]
    simp [hnl c (by simp)]
  | c :: c₂ :: cs, rest, _, hnl, h => by
    have ihr := invSynScan_append (c₂ :: cs) rest (by simp)
      (fun x hx => hnl x (List.mem_cons_of_mem c hx)) h
    simp only [List.cons_append] at ihr
    show invSynScan (c :: (c₂ :: (cs ++ rest))) = true
    unfold invSynScan
    rw [ihr]
    simp [hnl c (by simp)]

theorem missingFlagMatches_s (rest : List Char) :
    missingFlagMatches ('s' :: rest) = false := rfl

theorem numErrorMsg_data_syn (fn num : String) :
    (numErrorMsg fn num .errSyntax).data
      = ("strconv.".data ++ fn.data ++ [':'] ++ parsingLit ++ goQuoteInner num.data)
          ++ invSynTail := by
  simp only [numErrorMsg, goQuote, NumErr.text, strData_append, parsingLit, invSynTail,
    List.cons_append, List.append_assoc]
  rfl

theorem buildLoadError_numError_syn (q fn num : String)
    (hfn : ∀ c ∈ fn.data, c ≠ '\n') (hnum : num.data ≠ []) :
    buildLoadError q (numErrorMsg fn num .errSyntax)
      = "The value for " ++ q ++ " is invalid" := by
  have hmf : missingFlagMatches (numErrorMsg fn num .errSyntax).data = false := by
    rw [numErrorMsg_data_syn]
    exact missingFlagMatches_s _
  have hinv : invSynMatches (numErrorMsg fn num .errSyntax).data = true := by
    rw [numErrorMsg_data_syn]
    unfold invSynMatches
    rw [List.length_append]
    have h17 : invSynTail.length = 17 := rfl
    rw [h17]
    have hsub : ("strconv.".data ++ fn.data ++ [':'] ++ parsingLit
        ++ goQuoteInner num.data).length + 17 - 17
        = ("strconv.".data ++ fn.data ++ [':'] ++ parsingLit
            ++ goQuoteInner num.data).length := by omega
    rw [hsub, drop_len_append, take_len_append]
    have hscan : invSynScan ("strconv.".data ++ fn.data ++ [':'] ++ parsingLit
        ++ goQuoteInner num.data) = true := by
      have hassoc : "strconv.".data ++ fn.data ++ [':'] ++ parsingLit
          ++ goQuoteInner num.data
          = ("strconv.".data ++ fn.data ++ [':'])
              ++ (parsingLit ++ goQuoteInner num.data) := by
        simp [List.append_assoc]
      rw [hassoc]
      refine invSynScan_append _ _ (by simp) ?_
        (invSynAt_append _ (goQuoteInner_ne_nil num.data hnum)
          (fun c hc hceq => goQuoteInner_no_newline num.data (hceq ▸ hc)))
      intro c hc
      rcases List.mem_append.mp hc with hc | hc
      · rcases List.mem_append.mp hc with hc | hc
        · have hall : ∀ x ∈ "strconv.".data, x ≠ '\n' := by decide
          exact hall c hc
        · exact hfn c hc
      · have hall : ∀ x ∈ ([':'] : List Char), x ≠ '\n' := by decide
        exact hall c hc
    rw [hscan]
    simp
  unfold buildLoadError
  simp only [hmf, hinv]
  simp

theorem buildLoadError_missingFlag (q p : String)
    (hne : p.data ≠ []) (hws : ∀ ch ∈ p.data, goWhitespace ch = false) :
    buildLoadError q ("no such flag -" ++ p) = p ++ " is not a valid config setting" := by
  have hdata : ("no such flag -" ++ p).data = "no such flag -".data ++ p.data :=
    strData_append _ _
  have hdrop : ("no such flag -".data ++ p.data).drop 14 = p.data := by
    have h14 : ("no such flag -".data).length = 14 := rfl
    rw [← h14, drop_len_append]
  have hmatch : missingFlagMatches ("no such flag -".data ++ p.data) = true := by
    unfold missingFlagMatches
    rw [charsPrefix_self_append, hdrop]
    cases hp : p.data with
    | nil => exact absurd hp hne
    | cons c cs =>
      simp only [Bool.true_and]
      have hc := hws c (by rw [hp]; simp)
      simp [hc]
  unfold buildLoadError
  rw [hdata]
  simp only [hmatch, if_true]
  rw [hdrop]
  rw [takeWhile_eq_self_of_all _ p.data (fun a ha => by simp [hws a ha])]
  rw [dropWhile_eq_nil_of_all _ p.data (fun a ha => by simp [hws a ha])]
  rw [List.append_nil, ← strData_append]

/-! ## Claim theorems -/

/-- Claim C1: for every document and every declared setting whose dotted
path occurs in the document as a scalar leaf (exactly once, which is what
the dotted path identifying the leaf presupposes), a successful load sets
that setting to the document value converted to the setting's declared
type, and that conversion succeeds. -/
theorem load_overlays_unique_leaf (c : ConfigSet) (t : TomlEntries) (p : String)
    (v : TomlScalar) (sv : SettingValue)
    (hdecl : lookupSetting c.formal p = some sv)
    (hleaf : (leaves t []).filter (fun e => e.1 == p) = [(p, v)])
    (hok : (loadTomlTree c t []).2 = none) :
    lookupSetting ((loadTomlTree c t []).1).formal p
        = some (convert sv (renderScalar v)).1
      ∧ (convert sv (renderScalar v)).2 = none := by
  rw [loadTomlTree_eq_foldSet] at hok ⊢
  exact foldSet_success_lookup p v _ c sv hdecl hleaf hok

/-- Claim C1 witness: the flat document of the spec (my_bool, my_int,
my_string) overlays my_int with 22, and the nested document sets a
setting declared as "section.name" to "cool dude". -/
theorem load_overlays_unique_leaf_witness :
    (lookupSetting ((loadTomlTree
          ⟨"App Config", .continueOnError,
           [("my_bool", .vBool false), ("my_int", .vInt 0), ("my_string", .vString "nope")]⟩
          (.consScalar "my_bool" (.sBool true)
            (.consScalar "my_int" (.sInt 22)
              (.consScalar "my_string" (.sString "ok") .nil))) []).1).formal "my_int"
        = some (convert (.vInt 0) (renderScalar (.sInt 22))).1
      ∧ (convert (.vInt 0) (renderScalar (.sInt 22))).2 = none)
    ∧ (lookupSetting ((loadTomlTree
          ⟨"App Config", .continueOnError, [("section.name", .vString "")]⟩
          (.consTree "section" (.consScalar "name" (.sString "cool dude") .nil) .nil)
          []).1).formal "section.name"
        = some (convert (.vString "") (renderScalar (.sString "cool dude"))).1
      ∧ (convert (.vString "") (renderScalar (.sString "cool dude"))).2 = none) :=
  ⟨load_overlays_unique_leaf _ _ "my_int" (.sInt 22) (.vInt 0)
      (by decide) (by decide) (by decide),
   load_overlays_unique_leaf _ _ "section.name" (.sString "cool dude") (.vString "")
      (by decide) (by decide) (by decide)⟩

/-- Claim C2: when the traversal reaches a leaf whose Set step fails, the
whole load returns at once with the translated error; the final state is
exactly the state after the failing Set, so every setting overlaid by the
earlier leaves keeps its overlaid value, the remaining leaves are never
processed, and nothing is rolled back. -/
theorem load_aborts_at_first_failure (c c₁ : ConfigSet) (t : TomlEntries)
    (l₁ l₂ : List (String × TomlScalar)) (p : String) (v : TomlScalar) (e : String)
    (hl : leaves t [] = l₁ ++ (p, v) :: l₂)
    (h₁ : foldSet c l₁ = (c₁, none))
    (h₂ : (c₁.Set p (renderScalar v)).2 = some e) :
    loadTomlTree c t [] = ((c₁.Set p (renderScalar v)).1, some (buildLoadError p e)) := by
  rw [loadTomlTree_eq_foldSet, hl, foldSet_append_ok _ h₁]
  simp only [foldSet]
  cases hs : c₁.Set p (renderScalar v) with
  | mk c₂ e₂ =>
    rw [hs] at h₂
    have he : e₂ = some e := h₂
    subst he
    rfl

/-- Claim C2 witness: with three leaves, the second of which fails to
convert, load stops after the second leaf; the first overlay survives and
the third leaf is untouched. -/
theorem load_aborts_at_first_failure_witness :
    loadTomlTree
        ⟨"t", .continueOnError,
         [("a", .vInt 0), ("bad", .vInt 0), ("later", .vString "keep")]⟩
        (.consScalar "a" (.sInt 1)
          (.consScalar "bad" (.sString "x")
            (.consScalar "later" (.sString "changed") .nil))) []
      = ((ConfigSet.Set
            ⟨"t", .continueOnError,
             [("a", .vInt 1), ("bad", .vInt 0), ("later", .vString "keep")]⟩
            "bad" (renderScalar (.sString "x"))).1,
         some (buildLoadError "bad" "strconv.ParseInt: parsing \"x\": invalid syntax")) :=
  load_aborts_at_first_failure _ _ _ [("a", .sInt 1)] [("later", .sString "changed")]
    "bad" (.sString "x") _ (by decide) (by decide) (by decide)

/-- Claim C3 counterexample: for the dotted name "foo bar", which contains
whitespace, the returned message is not "foo bar is not a valid config
setting"; the regex only captures the run up to the first whitespace and
leaves the remainder of the name dangling after the substituted text. -/
theorem unknown_setting_message_splits_on_whitespace :
    (loadTomlTree ⟨"t", .continueOnError, []⟩
        (.consScalar "foo bar" (.sString "hi") .nil) []).2
      = some "foo is not a valid config setting bar"
    ∧ some "foo is not a valid config setting bar"
      ≠ some ("foo bar" ++ " is not a valid config setting") := by
  decide

/-- Claim C3 (amended): for every dotted path computed by the traversal
that has no declared setting and is nonempty and whitespace-free, load
returns exactly "name is not a valid config setting"; a name containing
whitespace is instead split at its first whitespace character by the
translation. -/
theorem unknown_setting_message_exact_without_whitespace (c c₁ : ConfigSet)
    (t : TomlEntries) (l₁ l₂ : List (String × TomlScalar)) (p : String) (v : TomlScalar)
    (hl : leaves t [] = l₁ ++ (p, v) :: l₂)
    (h₁ : foldSet c l₁ = (c₁, none))
    (hund : lookupSetting c₁.formal p = none)
    (hne : p.data ≠ [])
    (hws : ∀ ch ∈ p.data, goWhitespace ch = false) :
    loadTomlTree c t [] = (c₁, some (p ++ " is not a valid config setting")) := by
  rw [loadTomlTree_eq_foldSet, hl, foldSet_append_ok _ h₁]
  show (match c₁.Set p (renderScalar v) with
    | (c', some e) => (c', some (buildLoadError p e))
    | (c', none) => foldSet c' l₂)
    = (c₁, some (p ++ " is not a valid config setting"))
  rw [Set_of_lookup_none (renderScalar v) hund]
  show (c₁, some (buildLoadError p ("no such flag -" ++ p)))
    = (c₁, some (p ++ " is not a valid config setting"))
  rw [buildLoadError_missingFlag p p hne hws]

/-- Claim C3 witness: an undeclared whitespace-free key "missing_key"
reached after one successful overlay yields exactly the advertised
message. -/
theorem unknown_setting_message_exact_without_whitespace_witness :
    loadTomlTree ⟨"t", .continueOnError, [("known", .vInt 0)]⟩
        (.consScalar "known" (.sInt 1)
          (.consScalar "missing_key" (.sString "x") .nil)) []
      = (⟨"t", .continueOnError, [("known", .vInt 1)]⟩,
         some ("missing_key" ++ " is not a valid config setting")) :=
  unknown_setting_message_exact_without_whitespace _ _ _ [("known", .sInt 1)] []
    "missing_key" (.sString "x") (by decide) (by decide) (by decide) (by decide)
    (by decide)

/-- Claim C4 counterexample: an integer setting fed the out-of-range text
99999999999999999999 makes load return the raw strconv range message —
which embeds the raw leaf value — rather than "The value for cool is
invalid": the translation only recognizes the invalid-syntax shape. -/
theorem out_of_range_message_passes_through :
    (loadTomlTree ⟨"t", .continueOnError, [("cool", .vInt 10)]⟩
        (.consScalar "cool" (.sString "99999999999999999999") .nil) []).2
      = some "strconv.ParseInt: parsing \"99999999999999999999\": value out of range"
    ∧ some "strconv.ParseInt: parsing \"99999999999999999999\": value out of range"
      ≠ some ("The value for " ++ "cool" ++ " is invalid") := by
  decide

/-- Claim C4 (amended): a leaf whose nonempty text fails the declared
setting's strconv-backed conversion with invalid syntax — for any of the
bool, int, int64, uint and uint64 kinds, which includes signedness
violations such as "-1" on an unsigned setting — produces exactly
"The value for name is invalid", naming the path and hiding the value;
out-of-range integer text instead passes the raw strconv message through,
raw value included. -/
theorem invalid_syntax_message_names_path_only (c c₁ : ConfigSet) (t : TomlEntries)
    (l₁ l₂ : List (String × TomlScalar)) (p : String) (v : TomlScalar)
    (sv : SettingValue)
    (hl : leaves t [] = l₁ ++ (p, v) :: l₂)
    (h₁ : foldSet c l₁ = (c₁, none))
    (hdecl : lookupSetting c₁.formal p = some sv)
    (hfail :
      (∃ b, sv = .vBool b ∧ (parseBoolGo (renderScalar v)).2 = some .errSyntax)
      ∨ (∃ n, sv = .vInt n ∧ (parseIntGo (renderScalar v)).2 = some .errSyntax)
      ∨ (∃ n, sv = .vInt64 n ∧ (parseIntGo (renderScalar v)).2 = some .errSyntax)
      ∨ (∃ n, sv = .vUint n ∧ (parseUintGo (renderScalar v)).2 = some .errSyntax)
      ∨ (∃ n, sv = .vUint64 n ∧ (parseUintGo (renderScalar v)).2 = some .errSyntax))
    (hne : (renderScalar v).data ≠ []) :
    (loadTomlTree c t []).2 = some ("The value for " ++ p ++ " is invalid") := by
  rw [loadTomlTree_eq_foldSet, hl, foldSet_append_ok _ h₁]
  have hset := Set_of_lookup_some (c := c₁) (renderScalar v) hdecl
  rcases hfail with ⟨b, rfl, hp⟩ | ⟨n, rfl, hp⟩ | ⟨n, rfl, hp⟩ | ⟨n, rfl, hp⟩ | ⟨n, rfl, hp⟩
  · have hcv : (convert (.vBool b) (renderScalar v)).2
        = some (numErrorMsg "ParseBool" (renderScalar v) .errSyntax) := by
      simp [convert, hp]
    simp only [foldSet, hset, hcv]
    rw [buildLoadError_numError_syn p "ParseBool" (renderScalar v) (by decide) hne]
  · have hcv : (convert (.vInt n) (renderScalar v)).2
        = some (numErrorMsg "ParseInt" (renderScalar v) .errSyntax) := by
      simp [convert, hp]
    simp only [foldSet, hset, hcv]
    rw [buildLoadError_numError_syn p "ParseInt" (renderScalar v) (by decide) hne]
  · have hcv : (convert (.vInt64 n) (renderScalar v)).2
        = some (numErrorMsg "ParseInt" (renderScalar v) .errSyntax) := by
      simp [convert, hp]
    simp only [foldSet, hset, hcv]
    rw [buildLoadError_numError_syn p "ParseInt" (renderScalar v) (by decide) hne]
  · have hcv : (convert (.vUint n) (renderScalar v)).2
        = some (numErrorMsg "ParseUint" (renderScalar v) .errSyntax) := by
      simp [convert, hp]
    simp only [foldSet, hset, hcv]
    rw [buildLoadError_numError_syn p "ParseUint" (renderScalar v) (by decide) hne]
  · have hcv : (convert (.vUint64 n) (renderScalar v)).2
        = some (numErrorMsg "ParseUint" (renderScalar v) .errSyntax) := by
      simp [convert, hp]
    simp only [foldSet, hset, hcv]
    rw [buildLoadError_numError_syn p "ParseUint" (renderScalar v) (by decide) hne]

/-- Claim C4 witness: three kinds of the amended statement — the
repository test's int setting "cool" fed "notanumber", a bool setting fed
"notabool", and a uint setting fed the signedness-violating leaf -1. -/
theorem invalid_syntax_message_names_path_only_witness :
    ((loadTomlTree ⟨"t", .continueOnError, [("cool", .vInt 10)]⟩
        (.consScalar "cool" (.sString "notanumber") .nil) []).2
      = some ("The value for " ++ "cool" ++ " is invalid"))
    ∧ ((loadTomlTree ⟨"t", .continueOnError, [("enabled", .vBool false)]⟩
        (.consScalar "enabled" (.sString "notabool") .nil) []).2
      = some ("The value for " ++ "enabled" ++ " is invalid"))
    ∧ ((loadTomlTree ⟨"t", .continueOnError, [("count", .vUint 1)]⟩
        (.consScalar "count" (.sInt (-1)) .nil) []).2
      = some ("The value for " ++ "count" ++ " is invalid")) :=
  ⟨invalid_syntax_message_names_path_only
     ⟨"t", .continueOnError, [("cool", .vInt 10)]⟩
     ⟨"t", .continueOnError, [("cool", .vInt 10)]⟩
     _ [] [] "cool" (.sString "notanumber") (.vInt 10)
     (by decide) (by decide) (by decide)
     (Or.inr (Or.inl ⟨10, rfl, by decide⟩)) (by decide),
   invalid_syntax_message_names_path_only
     ⟨"t", .continueOnError, [("enabled", .vBool false)]⟩
     ⟨"t", .continueOnError, [("enabled", .vBool false)]⟩
     _ [] [] "enabled" (.sString "notabool") (.vBool false)
     (by decide) (by decide) (by decide)
     (Or.inl ⟨false, rfl, by decide⟩) (by decide),
   invalid_syntax_message_names_path_only
     ⟨"t", .continueOnError, [("count", .vUint 1)]⟩
     ⟨"t", .continueOnError, [("count", .vUint 1)]⟩
     _ [] [] "count" (.sInt (-1)) (.vUint 1)
     (by decide) (by decide) (by decide)
     (Or.inr (Or.inr (Or.inr (Or.inl ⟨1, rfl, by decide⟩)))) (by decide)⟩

/-- Claim C5: a declared setting whose dotted path does not occur among
the document's leaves is untouched by a successful load, so it still
holds its declared default (the value it was given at declaration). -/
theorem load_preserves_absent_settings (c : ConfigSet) (t : TomlEntries) (p : String)
    (hnot : p ∉ (leaves t []).map Prod.fst)
    (hok : (loadTomlTree c t []).2 = none) :
    lookupSetting ((loadTomlTree c t []).1).formal p = lookupSetting c.formal p := by
  rw [loadTomlTree_eq_foldSet]
  exact foldSet_lookup_of_notMem p _ hnot c

/-- Claim C5 witness: the tomlcfg test scenario — "foo" is declared with
default "default1" and absent from the document, and keeps its default
through a successful load. -/
theorem load_preserves_absent_settings_witness :
    lookupSetting ((loadTomlTree
        ⟨"App Config", .continueOnError,
         [("name", .vString "foo"), ("foo", .vString "default1")]⟩
        (.consScalar "name" (.sString "tomlcfg") .nil) []).1).formal "foo"
      = lookupSetting
          (⟨"App Config", .continueOnError,
            [("name", .vString "foo"), ("foo", .vString "default1")]⟩ : ConfigSet).formal
          "foo" :=
  load_preserves_absent_settings _ _ "foo" (by decide) (by decide)

/-- Claim C6: Parse passes a file-read failure message through unmodified
with the registry untouched, and turns a TOML syntax failure into the
fixed message naming the path. -/
theorem parse_file_error_messages (c : ConfigSet) (path : String)
    (readFile : String → Except String String)
    (tomlLoad : String → Except String TomlEntries) :
    (∀ e, readFile path = .error e →
      c.Parse path readFile tomlLoad = (c, some e))
    ∧ (∀ contents pe, readFile path = .ok contents → tomlLoad contents = .error pe →
        c.Parse path readFile tomlLoad
          = (c, some (path ++ " is not a valid TOML file. See https://github.com/mojombo/toml"))) := by
  constructor
  · intro e he
    simp [ConfigSet.Parse, he]
  · intro contents pe h1 h2
    simp [ConfigSet.Parse, h1, h2]

/-- Claim C6 witness: the repository test's missing-file and invalid-file
scenarios, with the file system and TOML parser outcomes of the test
environment supplied explicitly. -/
theorem parse_file_error_messages_witness :
    ConfigSet.Parse ⟨"t", .continueOnError, []⟩ "examples/nope.conf"
        (fun _ => .error "open examples/nope.conf: no such file or directory")
        (fun _ => .ok .nil)
      = (⟨"t", .continueOnError, []⟩,
         some "open examples/nope.conf: no such file or directory")
    ∧ ConfigSet.Parse ⟨"t", .continueOnError, []⟩ "examples/invalid.conf"
        (fun _ => .ok "[what")
        (fun _ => .error "unexpected token")
      = (⟨"t", .continueOnError, []⟩,
         some ("examples/invalid.conf"
           ++ " is not a valid TOML file. See https://github.com/mojombo/toml")) :=
  ⟨(parse_file_error_messages _ _ _ _).1 _ rfl,
   (parse_file_error_messages _ _ _ _).2 "[what" "unexpected token" rfl rfl⟩

/-- Claim C7 counterexample: on an ExitOnError ConfigSet, a failing
per-setting Set step during load does not take over control flow — an
error value is constructed and returned to the caller, exactly as under
ContinueOnError, because flag.FlagSet.Set never consults the policy (the
repository's own testBadParse runs this scenario on an ExitOnError set
and asserts on the returned error). -/
theorem exit_on_error_still_returns_error_value :
    (loadTomlTree ⟨"App Config", .exitOnError, [("cool", .vInt 10)]⟩
        (.consScalar "cool" (.sString "notanumber") .nil) []).2
      = some "The value for cool is invalid"
    ∧ loadTomlTree ⟨"App Config", .exitOnError, [("cool", .vInt 10)]⟩
        (.consScalar "cool" (.sString "notanumber") .nil) []
      = (⟨"App Config", .exitOnError, [("cool", .vInt 0)]⟩,
         some "The value for cool is invalid") := by
  decide

/-- Claim C7 (amended): load always returns its outcome as a value, and
that outcome — the returned error and the final settings — is the same
under every error-handling policy: the per-setting mutation path never
consults the policy, so ExitOnError and PanicOnError behave exactly like
ContinueOnError during load. -/
theorem load_result_independent_of_policy (c : ConfigSet) (t : TomlEntries)
    (path : List String) (p₁ p₂ : ErrorHandling) :
    (loadTomlTree (c.withPolicy p₁) t path).2 = (loadTomlTree (c.withPolicy p₂) t path).2
    ∧ ((loadTomlTree (c.withPolicy p₁) t path).1).formal
        = ((loadTomlTree (c.withPolicy p₂) t path).1).formal := by
  simp only [loadTomlTree_eq_foldSet]
  rw [foldSet_withPolicy p₁, foldSet_withPolicy p₂]
  exact ⟨rfl, rfl⟩

/-- Claim C8 counterexample: declaring the same name twice on one
registry does not succeed silently — the second declaration aborts with
the flag-redefined panic of the underlying flag package. -/
theorem duplicate_declaration_panics :
    (NewConfigSet "test" .continueOnError).Bool "x" true
        = .ok ⟨"test", .continueOnError, [("x", .vBool true)]⟩
    ∧ ConfigSet.Bool ⟨"test", .continueOnError, [("x", .vBool true)]⟩ "x" false
        = .panicked "test flag redefined: x" := by
  decide

/-- Claim C8 (amended): declaring a fresh name always succeeds without
signaling an error, appends the slot, and the returned handle reads the
given default until a load overlays it; only re-declaring an existing
name panics. -/
theorem fresh_declaration_succeeds (c : ConfigSet) (name : String) (v : SettingValue)
    (h : lookupSetting c.formal name = none) :
    c.Var name v = .ok ⟨c.name, c.errorHandling, c.formal ++ [(name, v)]⟩
    ∧ lookupSetting (c.formal ++ [(name, v)]) name = some v := by
  constructor
  · simp [ConfigSet.Var, h]
  · exact lookupSetting_append_fresh c.formal name v h

/-- Claim C8 witness: a fresh boolean declaration on a new registry. -/
theorem fresh_declaration_succeeds_witness :
    (NewConfigSet "test" .continueOnError).Var "x" (.vBool true)
        = .ok ⟨"test", .continueOnError, [("x", .vBool true)]⟩
    ∧ lookupSetting ((NewConfigSet "test" .continueOnError).formal ++ [("x", .vBool true)]) "x"
        = some (.vBool true) :=
  fresh_declaration_succeeds _ "x" (.vBool true) rfl

/-- Claim C9: the overlay step never inspects the document value's own
kind — a scalar leaf acts only through its rendered text, so two leaves
of different kinds with equal renderings load identically; in particular
a TOML string "22" overlays an integer setting whenever its text parses
as an integer. -/
theorem overlay_depends_only_on_rendered_text (c : ConfigSet) (key : String)
    (v₁ v₂ : TomlScalar) (rest : TomlEntries) (path : List String)
    (h : renderScalar v₁ = renderScalar v₂) :
    loadTomlTree c (.consScalar key v₁ rest) path
      = loadTomlTree c (.consScalar key v₂ rest) path := by
  simp only [loadTomlTree, h]

/-- Claim C9 witness: the string leaf "22" and the integer leaf 22 load
identically onto an integer setting, and the string leaf succeeds,
setting the integer value 22. -/
theorem overlay_depends_only_on_rendered_text_witness :
    (loadTomlTree ⟨"t", .continueOnError, [("n", .vInt 0)]⟩
        (.consScalar "n" (.sString "22") .nil) []
      = loadTomlTree ⟨"t", .continueOnError, [("n", .vInt 0)]⟩
        (.consScalar "n" (.sInt 22) .nil) [])
    ∧ loadTomlTree ⟨"t", .continueOnError, [("n", .vInt 0)]⟩
        (.consScalar "n" (.sString "22") .nil) []
      = (⟨"t", .continueOnError, [("n", .vInt 22)]⟩, none) :=
  ⟨overlay_depends_only_on_rendered_text _ "n" (.sString "22") (.sInt 22) .nil []
      (by decide),
   by decide⟩

/-- Claim C10: in the tomlcfg variant, ConfigSet.Duration registers the
duration setting in the process-wide default registry and not in the
receiver: the receiver is returned unchanged and the global registry
gains the slot under the given name. -/
theorem tomlcfg_duration_registers_globally (c g : ConfigSet) (name : String) (value : ℤ)
    (hfresh : lookupSetting g.formal name = none) :
    Tomlcfg.ConfigSet.Duration c g name value
      = (c, .ok ⟨g.name, g.errorHandling, g.formal ++ [(name, .vDuration value)]⟩)
    ∧ lookupSetting (g.formal ++ [(name, .vDuration value)]) name
        = some (.vDuration value) := by
  constructor
  · simp [Tomlcfg.ConfigSet.Duration, ConfigSet.Var, hfresh]
  · exact lookupSetting_append_fresh g.formal name (.vDuration value) hfresh

/-- Claim C10 witness: a receiver distinct from the default registry is
unchanged while the default registry gains the duration setting. -/
theorem tomlcfg_duration_registers_globally_witness :
    Tomlcfg.ConfigSet.Duration
        ⟨"network settings", .exitOnError, [("host", .vString "localhost")]⟩
        ⟨"prog", .exitOnError, []⟩ "timeout" 5000000000
      = (⟨"network settings", .exitOnError, [("host", .vString "localhost")]⟩,
         .ok ⟨"prog", .exitOnError, [("timeout", .vDuration 5000000000)]⟩)
    ∧ lookupSetting (([] : List (String × SettingValue))
          ++ [("timeout", .vDuration 5000000000)]) "timeout"
        = some (.vDuration 5000000000) :=
  tomlcfg_duration_registers_globally _ _ "timeout" 5000000000 rfl
